import Mathlib

/-!
Verification of the text-to-command planning engine of the repository
(`shared/planning/parser.ts` together with the zod schemas of
`shared/planning/schemas.ts`).

The planner is a pure, synchronous function from a request `{text, locale}`
to a tagged response (`plan` / `clarify` / `error`).  We embed it shallowly:

* JS strings are `List Char` internally (`String` at the API boundary);
  the handful of regexes the source uses are implemented as bespoke
  scanners with exactly the leftmost-match / greedy-with-backtracking
  semantics of the JavaScript regexes they embed, including the fact that
  in `extractCurrencyValue` the pattern is built inside a *template
  literal*, so the `\s`, `\d`, `\.` escapes are lost and the pattern
  actually matches literal `s` and `d` characters.
* JS numbers reachable here are either NaN or decimal rationals, modelled
  by `JNum` (`parseFloat` of a captured token).
* `Schema.parse` calls (zod v3) throw on invalid data; a throw is modelled
  by `none`, so every builder and `planFromRequest` itself return
  `Option PlanResponse`, where `none` means an uncaught exception.
  zod v3 rejects `NaN` for `z.number()`, non-integers for
  `z.number().int()`, and `""` for `z.string().min(1)`.
* Scanners that skip more than one character per step take an explicit
  fuel argument (initialised with the length of the input, which bounds
  the number of steps) so that all definitions are structurally recursive
  and kernel-reducible.

Modelling notes: JS `\s`, `.trim()` and `.toLowerCase()` also handle
non-ASCII white space and letters; the keyword tables and all inputs in
question are ASCII, where the models below agree with JavaScript.
-/

namespace ShopifyPlanner

/-! ## Character classes (JS regex semantics, ASCII fragment) -/

/-- JS `\s` (ASCII fragment). -/
def isSpaceJS (c : Char) : Bool :=
  c = ' ' || c = '\t' || c = '\n' || c = '\r' || c = '\x0b' || c = '\x0c'

/-- JS `\w`: `[A-Za-z0-9_]`. -/
def isWordChar (c : Char) : Bool :=
  ('a' ≤ c && c ≤ 'z') || ('A' ≤ c && c ≤ 'Z') || ('0' ≤ c && c ≤ '9') || c = '_'

/-- ASCII digit. -/
def isDigitChar (c : Char) : Bool := '0' ≤ c && c ≤ '9'

/-- The single-quote character, written via its code point. -/
def squote : Char := Char.ofNat 39

/-- Case-sensitive list prefix test. -/
def prefixEq : List Char → List Char → Bool
  | [], _ => true
  | _ :: _, [] => false
  | p :: ps, c :: cs => p = c && prefixEq ps cs

/-- Case-sensitive substring test (`pat` occurs in the second list). -/
def infixEq (pat : List Char) : List Char → Bool
  | [] => pat.isEmpty
  | c :: rest => prefixEq pat (c :: rest) || infixEq pat rest

/-- Case-insensitive list prefix test (ASCII folding, as JS `/i`). -/
def prefixCI : List Char → List Char → Bool
  | [], _ => true
  | _ :: _, [] => false
  | p :: ps, c :: cs => p.toLower = c.toLower && prefixCI ps cs

/-- `text.toLowerCase()` as a character list (ASCII folding). -/
def lowerOf (s : String) : List Char := s.data.map Char.toLower

/-- `/pat/.test(lower)` for a literal keyword `pat` on a lowercased text. -/
def testLower (lower : List Char) (pat : String) : Bool := infixEq pat.data lower

/-- `/pat/i.test(text)` for a literal keyword `pat`. -/
def testCI (text : String) (pat : String) : Bool := infixEq pat.data (lowerOf text)

/-- JS `String.prototype.trim` on a character list (ASCII whitespace). -/
def trimChars (l : List Char) : List Char :=
  ((l.dropWhile isSpaceJS).reverse.dropWhile isSpaceJS).reverse

/-- `normalize` of the source: `text.trim()`. -/
def normalize (text : String) : String := String.mk (trimChars text.data)

/-! ## JS numbers reachable from `parseFloat` -/

/-- A JavaScript number as produced by `parseFloat` on the tokens this
program captures: either `NaN` or a decimal rational. -/
inductive JNum where
  | nan : JNum
  | val : ℚ → JNum
deriving DecidableEq

/-- `|q|` computed by a sign test on the numerator with the primitive
`Rat.neg`, so that kernel evaluation (`decide`) is effective; equal to
`|q|` by `absQ_eq_abs` below. -/
def absQ (q : ℚ) : ℚ := if q.num < 0 then Rat.neg q else q

/-- `Math.abs`. -/
def absJS : JNum → JNum
  | .nan => .nan
  | .val q => .val (absQ q)

/-- Unary minus (used as `-Math.abs(x)`). -/
def negJS : JNum → JNum
  | .nan => .nan
  | .val q => .val (Rat.neg q)

/-- Value of a digit list, most significant first. -/
def digitsToNat (ds : List Char) : Nat :=
  ds.foldl (fun acc c => 10 * acc + (c.toNat - '0'.toNat)) 0

/-- The rational value of a parsed decimal `[-]ds.fs`, built with the
primitive `Rat.divInt` (the Mathlib field operations on `ℚ` do not reduce
inside the kernel). -/
def decimalValue (neg : Bool) (ds fs : List Char) : ℚ :=
  let den : Nat := 10 ^ fs.length
  let n : Nat := digitsToNat ds * den + digitsToNat fs
  Rat.divInt (if neg then -(n : Int) else (n : Int)) (den : Int)

/-- JS `parseFloat` restricted to the inputs reachable in this program:
leading whitespace, an optional sign, then decimal digits and/or a dot
with fractional digits; anything else yields `NaN`.  (Exponents and
`Infinity` literals never occur in the captured tokens.) -/
def parseFloatJS (l : List Char) : JNum :=
  let l1 := l.dropWhile isSpaceJS
  let sl : Bool × List Char :=
    match l1 with
    | '-' :: r => (true, r)
    | '+' :: r => (false, r)
    | _ => (false, l1)
  let ds := sl.2.takeWhile isDigitChar
  let l3 := sl.2.drop ds.length
  match l3 with
  | '.' :: r =>
    let fs := r.takeWhile isDigitChar
    if ds.isEmpty && fs.isEmpty then .nan
    else .val (decimalValue sl.1 ds fs)
  | _ => if ds.isEmpty then .nan else .val (decimalValue sl.1 ds [])

/-! ## The number-token scanners

`extractPercentage` uses `/(-?\d+(?:\.\d+)?)\s*%/`, `extractPlainNumber`
uses `/(-?\d+(?:\.\d+)?)/`.  At a given start position both are
deterministic: the quantified pieces are greedy and shrinking them can
never save a failing match, because a digit is neither `\s`, `%`, nor the
end of pattern. -/

/-- Match `-?\d+(?:\.\d+)?` at the head; return `(capture, rest)`. -/
def numTokenAt (l : List Char) : Option (List Char × List Char) :=
  let sl : List Char × List Char :=
    match l with
    | '-' :: r => (['-'], r)
    | _ => ([], l)
  let ds := sl.2.takeWhile isDigitChar
  if ds.isEmpty then none
  else
    let l2 := sl.2.drop ds.length
    match l2 with
    | '.' :: r =>
      let fs := r.takeWhile isDigitChar
      if fs.isEmpty then some (sl.1 ++ ds, l2)
      else some (sl.1 ++ ds ++ '.' :: fs, r.drop fs.length)
    | _ => some (sl.1 ++ ds, l2)

/-- Match `-?\d+(?:\.\d+)?\s*%` at the head; return the number capture. -/
def percentAt (l : List Char) : Option (List Char) :=
  match numTokenAt l with
  | none => none
  | some (cap, rest) =>
    match rest.dropWhile isSpaceJS with
    | '%' :: _ => some cap
    | _ => none

/-- Leftmost match for the percentage pattern. -/
def findPercent : List Char → Option (List Char)
  | [] => none
  | c :: rest =>
    match percentAt (c :: rest) with
    | some cap => some cap
    | none => findPercent rest

/-- Leftmost match for the plain-number pattern. -/
def findNum : List Char → Option (List Char)
  | [] => none
  | c :: rest =>
    match numTokenAt (c :: rest) with
    | some capRest => some capRest.1
    | none => findNum rest

/-- The currency symbol set of the source. -/
def CURRENCY_SYMBOLS : List Char := ['$', '€', '£', '₹', '¥', '₤', '₱', '₦', '₽']

/-- Match the pattern of `extractCurrencyValue` at the head.  The source
builds it in a template literal, so the escapes are lost and the compiled
regex is `[$€£₹¥₤₱₦₽]?s*(-?d+(?:.d+)?)` — literal `s` and `d`
characters, with `.` matching any non-line-terminator.  Returns the
capture group. -/
def currencyAt (l : List Char) : Option (List Char) :=
  let l1 : List Char :=
    match l with
    | c :: r => if CURRENCY_SYMBOLS.contains c then r else l
    | [] => l
  let l2 := l1.dropWhile (fun c => c = 's')
  let sl : List Char × List Char :=
    match l2 with
    | '-' :: r => (['-'], r)
    | _ => ([], l2)
  let ds := sl.2.takeWhile (fun c => c = 'd')
  if ds.isEmpty then none
  else
    let l4 := sl.2.drop ds.length
    match l4 with
    | c :: r =>
      let ds2 := r.takeWhile (fun c => c = 'd')
      if c ≠ '\n' && c ≠ '\r' && c.toNat ≠ 0x2028 && c.toNat ≠ 0x2029 && !ds2.isEmpty then
        some (sl.1 ++ ds ++ c :: ds2)
      else some (sl.1 ++ ds)
    | [] => some (sl.1 ++ ds)

/-- Leftmost match for the (broken) currency pattern. -/
def findCurrency : List Char → Option (List Char)
  | [] => none
  | c :: rest =>
    match currencyAt (c :: rest) with
    | some cap => some cap
    | none => findCurrency rest

/-! ## Extraction primitives (`parser.ts` lines 41–59) -/

def extractPercentage (text : String) : Option JNum :=
  (findPercent text.data).map parseFloatJS

def extractCurrencyValue (text : String) : Option JNum :=
  (findCurrency text.data).map parseFloatJS

def extractPlainNumber (text : String) : Option JNum :=
  (findNum text.data).map parseFloatJS

/-- JS `a ?? b` on nullable numbers. -/
def coalesce (a b : Option JNum) : Option JNum :=
  match a with
  | some x => some x
  | none => b

/-! ## The filter-phrase pipeline (`buildFilterSpec`, lines 61–79)

Each pass below is one `.replace(..., " ")` of the source, implemented as
a left-to-right non-overlapping scan exactly as the JS regex engine does
with the `g` flag.  Scans that can consume several characters per step
take fuel; each step consumes at least one character and one unit of
fuel, so initialising the fuel with the input length makes the
fuel-exhausted branch unreachable. -/

/-- One global case-insensitive literal replacement by a single space —
`cleaned.replace(new RegExp(escapedSegment, "ig"), " ")` (the escaping
makes the segment a literal pattern). -/
def replaceAllCIF : Nat → List Char → List Char → List Char
  | 0, _, l => l
  | _ + 1, _, [] => []
  | fuel + 1, pat, c :: rest =>
    if prefixCI pat (c :: rest) then
      ' ' :: replaceAllCIF fuel pat ((c :: rest).drop pat.length)
    else
      c :: replaceAllCIF fuel pat rest

def replaceAllCI (pat l : List Char) : List Char := replaceAllCIF l.length pat l

/-- Split at the first occurrence of `q`: `(before, after)`, the
occurrence itself removed. -/
def splitAtChar (q : Char) (l : List Char) : Option (List Char × List Char) :=
  match l.findIdx? (fun c => c = q) with
  | none => none
  | some i => some (l.take i, l.drop (i + 1))

/-- `.replace(/"([^"]+)"|'([^']+)'/g, " ")`: remove quoted spans.  A
quoted span is an opening quote, at least one non-quote character, and
the next matching quote; an immediately adjacent pair does not match and
the scan moves on by one character. -/
def removeQuotedF : Nat → List Char → List Char
  | 0, l => l
  | _ + 1, [] => []
  | fuel + 1, c :: rest =>
    if c = '"' then
      match splitAtChar '"' rest with
      | some (before, after) =>
        if before.isEmpty then c :: removeQuotedF fuel rest
        else ' ' :: removeQuotedF fuel after
      | none => c :: removeQuotedF fuel rest
    else if c = squote then
      match splitAtChar squote rest with
      | some (before, after) =>
        if before.isEmpty then c :: removeQuotedF fuel rest
        else ' ' :: removeQuotedF fuel after
      | none => c :: removeQuotedF fuel rest
    else c :: removeQuotedF fuel rest

def removeQuoted (l : List Char) : List Char := removeQuotedF l.length l

/-- `.replace(/\d+(?:\.\d+)?%?/g, " ")`: blank out numeric tokens (no
leading sign in this pattern). -/
def removeDigitTokensF : Nat → List Char → List Char
  | 0, l => l
  | _ + 1, [] => []
  | fuel + 1, c :: rest =>
    if isDigitChar c then
      let r1 := rest.dropWhile isDigitChar
      let r2 : List Char :=
        match r1 with
        | '.' :: d :: r => if isDigitChar d then (d :: r).dropWhile isDigitChar else '.' :: d :: r
        | other => other
      let r3 : List Char :=
        match r2 with
        | '%' :: r => r
        | other => other
      ' ' :: removeDigitTokensF fuel r3
    else c :: removeDigitTokensF fuel rest

def removeDigitTokens (l : List Char) : List Char := removeDigitTokensF l.length l

/-- The stop-word table of the source, in its order (the order is the
alternation order of the compiled `FILTER_STRIP_REGEX`). -/
def WORDS_TO_STRIP : List String :=
  ["please", "all", "products", "product", "items", "item", "the", "to",
   "for", "of", "with", "and", "that", "my"]

/-- True when the list starts with a non-word character or is empty
(the `\b` after a matched stop word). -/
def nonWordOrEnd : List Char → Bool
  | [] => true
  | c :: _ => !isWordChar c

/-- First stop word (in alternation order) matching case-insensitively at
the head with a word boundary after it; returns its length. -/
def stopWordAt (l : List Char) : Option Nat :=
  WORDS_TO_STRIP.findSome? fun w =>
    if prefixCI w.data l && nonWordOrEnd (l.drop w.data.length) then some w.data.length
    else none

/-- `.replace(FILTER_STRIP_REGEX, " ")` where `FILTER_STRIP_REGEX` is
`\b(please|all|…|my)\b` with flags `gi`.  `prev` is the character before
the current position of the scan (`none` at the start): a stop word can
only match here when that character is absent or a non-word character,
since every stop word starts with a word character. -/
def stripStopWordsF : Nat → Option Char → List Char → List Char
  | 0, _, l => l
  | _ + 1, _, [] => []
  | fuel + 1, prev, c :: rest =>
    if (match prev with | none => true | some p => !isWordChar p) then
      match stopWordAt (c :: rest) with
      | some n => ' ' :: stripStopWordsF fuel ((c :: rest).take n).getLast? ((c :: rest).drop n)
      | none => c :: stripStopWordsF fuel (some c) rest
    else c :: stripStopWordsF fuel (some c) rest

def stripStopWords (l : List Char) : List Char := stripStopWordsF l.length none l

/-- `.replace(/\s+/g, " ")`. -/
def collapseSpacesF : Nat → List Char → List Char
  | 0, l => l
  | _ + 1, [] => []
  | fuel + 1, c :: rest =>
    if isSpaceJS c then ' ' :: collapseSpacesF fuel (rest.dropWhile isSpaceJS)
    else c :: collapseSpacesF fuel rest

def collapseSpaces (l : List Char) : List Char := collapseSpacesF l.length l

/-- The segment-removal loop at the top of `buildFilterSpec`: empty
segments are skipped, the others are regex-escaped and replaced
case-insensitively by a space. -/
def stripSegments (usedSegments : List String) (l : List Char) : List Char :=
  usedSegments.foldl (fun acc seg => if seg = "" then acc else replaceAllCI seg.data acc) l

/-- The residual text `cleaned` computed by `buildFilterSpec` before the
length test. -/
def filterResidue (text : String) (usedSegments : List String) : List Char :=
  trimChars (collapseSpaces (stripStopWords (removeDigitTokens (removeQuoted
    (stripSegments usedSegments text.data)))))

/-! ## Tag parsing (`parseTags`, lines 81–96) -/

/-- `text.matchAll(/"([^"]+)"|'([^']+)'/g)` — the list of captured
(quoted) spans in order of appearance, quotes excluded. -/
def quotedCapturesF : Nat → List Char → List (List Char)
  | 0, _ => []
  | _ + 1, [] => []
  | fuel + 1, c :: rest =>
    if c = '"' then
      match splitAtChar '"' rest with
      | some (before, after) =>
        if before.isEmpty then quotedCapturesF fuel rest
        else before :: quotedCapturesF fuel after
      | none => quotedCapturesF fuel rest
    else if c = squote then
      match splitAtChar squote rest with
      | some (before, after) =>
        if before.isEmpty then quotedCapturesF fuel rest
        else before :: quotedCapturesF fuel after
      | none => quotedCapturesF fuel rest
    else quotedCapturesF fuel rest

def quotedCaptures (l : List Char) : List (List Char) := quotedCapturesF l.length l

/-- `text.split(/tags?/i)`: split at each non-overlapping occurrence of
`tag` optionally followed by `s`, case-insensitively (`tags` is tried
first at each position, as the greedy `s?`). -/
def splitTagSepF : Nat → List Char → List Char → List (List Char)
  | 0, acc, l => [acc.reverse ++ l]
  | _ + 1, acc, [] => [acc.reverse]
  | fuel + 1, acc, c :: rest =>
    if prefixCI "tags".data (c :: rest) then
      acc.reverse :: splitTagSepF fuel [] (rest.drop 3)
    else if prefixCI "tag".data (c :: rest) then
      acc.reverse :: splitTagSepF fuel [] (rest.drop 2)
    else splitTagSepF fuel (c :: acc) rest

def splitTagSep (l : List Char) : List (List Char) := splitTagSepF l.length [] l

/-- `afterTag.split(/[,&]/)`. -/
def splitCommaAmp : List Char → List (List Char)
  | [] => [[]]
  | c :: rest =>
    if c = ',' || c = '&' then [] :: splitCommaAmp rest
    else
      match splitCommaAmp rest with
      | [] => [[c]]
      | seg :: segs => (c :: seg) :: segs

/-- `parseTags` (lines 81–96): prefer quoted literals (trimmed, empties
discarded); otherwise split what follows the first `tag(s)` keyword on
commas and ampersands. -/
def parseTags (text : String) : List String :=
  let quoted := quotedCaptures text.data
  if !quoted.isEmpty then
    ((quoted.map (fun t => String.mk (trimChars t)))).filter (fun s => s ≠ "")
  else
    match (splitTagSep text.data).get? 1 with
    | none => []
    | some afterTag =>
      if afterTag.isEmpty then []
      else
        (((splitCommaAmp afterTag).map trimChars).filter (fun p => !p.isEmpty)).map String.mk

/-! ## Status and location detection (lines 98–109) -/

inductive ProductStatus where
  | ACTIVE | DRAFT | ARCHIVED
deriving DecidableEq

/-- `deriveStatus` (lines 98–103): three case-insensitive keyword tests,
first match wins.  `/archive|archived?/i` holds exactly when the text
contains `archive`. -/
def deriveStatus (text : String) : Option ProductStatus :=
  if testCI text "publish" || testCI text "activate" then some .ACTIVE
  else if testCI text "unpublish" || testCI text "draft" then some .DRAFT
  else if testCI text "archive" then some .ARCHIVED
  else none

/-- The class `[\w\s-]` of the location capture. -/
def isLocClassChar (c : Char) : Bool := isWordChar c || isSpaceJS c || c = '-'

/-- Match `\s+([\w\s-]+)` at the head of `u` (greedy `\s+`, backtracking
one space into the capture when the capture would otherwise be empty);
returns the raw capture. -/
def locTailCapture (u : List Char) : Option (List Char) :=
  let sp := u.takeWhile isSpaceJS
  if sp.isEmpty then none
  else
    let tail := u.drop sp.length
    let run := tail.takeWhile isLocClassChar
    if !run.isEmpty then some run
    else if 2 ≤ sp.length then sp.getLast?.map (fun c => [c])
    else none

/-- Match `(?:location|at|in)\s+(?:location\s+)?([\w\s-]+)` at the head
(flags `i`); returns the raw capture.  The three keyword alternatives
start with distinct letters, so at most one applies at a position; the
optional `location\s+` group can only match when the greedy `\s+` kept
all the white space. -/
def locationAt (l : List Char) : Option (List Char) :=
  let kw : Option Nat :=
    if prefixCI "location".data l then some 8
    else if prefixCI "at".data l then some 2
    else if prefixCI "in".data l then some 2
    else none
  match kw with
  | none => none
  | some n =>
    let u := l.drop n
    let sp := u.takeWhile isSpaceJS
    if sp.isEmpty then none
    else
      let tail := u.drop sp.length
      if prefixCI "location".data tail then
        match locTailCapture (tail.drop 8) with
        | some cap => some cap
        | none => some (tail.takeWhile isLocClassChar)
      else
        let run := tail.takeWhile isLocClassChar
        if !run.isEmpty then some run
        else if 2 ≤ sp.length then sp.getLast?.map (fun c => [c])
        else none

/-- Leftmost match for the location pattern. -/
def findLocation : List Char → Option (List Char)
  | [] => none
  | c :: rest =>
    match locationAt (c :: rest) with
    | some cap => some cap
    | none => findLocation rest

/-- `detectLocation` (lines 105–109): leftmost match, capture trimmed. -/
def detectLocation (text : String) : Option String :=
  (findLocation text.data).map (fun cap => String.mk (trimChars cap))

/-! ## The data model (`schemas.ts`)

Only the parts the planner produces are embedded.  `compare_at`,
`metafield` and `seo` operation variants, the `schedule` field, the
`currency`/`round` price fields and clarify-issue `options` are never
constructed by any builder and are omitted.  Defaults applied by zod
(`scope`, `confidence`) are always passed explicitly by the builders. -/

inductive Scope where
  | product | variant
deriving DecidableEq

inductive Confidence where
  | high | medium | low
deriving DecidableEq

inductive PriceMode where
  | inc_percent | inc_value | set
deriving DecidableEq

inductive TagsMode where
  | add | remove | replace
deriving DecidableEq

inductive InvMode where
  | set | inc | dec
deriving DecidableEq

/-- The tagged operation spec (discriminant `operation`). -/
inductive OpSpec where
  | price (scope : Scope) (mode : PriceMode) (value : JNum)
  | tags (scope : Scope) (mode : TagsMode) (values : List String)
  | inventory (scope : Scope) (mode : InvMode) (value : JNum) (locationId : Option String)
  | status (scope : Scope) (status : ProductStatus)
deriving DecidableEq

/-- `FilterSpec` (flattened: `must`, `mustNot`, `titleContains`,
`numeric`). -/
structure FilterSpec where
  mustVendors : List String
  mustTypes : List String
  mustCollections : List String
  mustTags : List String
  mustNotTags : List String
  titleContains : Option String
  numericPriceGte : Option ℚ
  numericPriceLte : Option ℚ
  numericInventoryEq : Option ℚ
deriving DecidableEq

/-- `emptyFilterSpec()` of `schemas.ts`. -/
def emptyFilterSpec : FilterSpec :=
  ⟨[], [], [], [], [], none, none, none, none⟩

/-- The closed clarify-code enumeration. -/
inductive ClarifyCode where
  | inventoryRequireLocation
  | planUnrecognized
  | planUnsupported
  | planMissingAmount
  | planMissingTagValues
deriving DecidableEq

structure ClarifyIssue where
  code : ClarifyCode
  messageKey : String
deriving DecidableEq

/-- The partial plan attached to a clarify (`draft`). -/
structure PlanDraft where
  opSpec : OpSpec
  filterSpec : FilterSpec
  confidence : Confidence
deriving DecidableEq

/-- `PlanResponse`: exactly one of `plan`, `clarify`, `error`. -/
inductive PlanResponse where
  | plan (opSpec : OpSpec) (filterSpec : FilterSpec) (confidence : Confidence)
      (summaryKey : Option String)
  | clarify (issues : List ClarifyIssue) (draft : Option PlanDraft)
  | error (code : String) (message : String)
deriving DecidableEq

structure PlanRequest where
  text : String
  locale : Option String
deriving DecidableEq

/-! ## zod validation (`Schema.parse`)

zod v3 `.parse` throws on invalid data.  The checks reachable from the
builders: `z.number()` rejects `NaN` (price and inventory `value`),
`z.number().int()` rejects non-integers (inventory `value`),
`z.string().min(1)` rejects `""` (tag values, `locationId`),
`z.array(...).min(1)` / `.nonempty()` reject `[]` (tag values, clarify
issues).  A failed parse is `none`. -/

def validString1 (s : String) : Bool := !(s.data.isEmpty)

/-- `z.number()` (rejects `NaN`). -/
def validJNum : JNum → Bool
  | .nan => false
  | .val _ => true

/-- `z.number().int()` (rejects `NaN` and non-integers). -/
def validJNumInt : JNum → Bool
  | .nan => false
  | .val q => q.den == 1

/-- `OpSpecSchema` payload checks. -/
def validOpSpec : OpSpec → Bool
  | .price _ _ v => validJNum v
  | .tags _ _ values => !values.isEmpty && values.all validString1
  | .inventory _ _ v loc =>
    validJNumInt v &&
    (match loc with | none => true | some s => validString1 s)
  | .status _ _ => true

def OpSpecSchema_parse (op : OpSpec) : Option OpSpec :=
  if validOpSpec op then some op else none

/-- `FilterSpecSchema` never rejects what the builders construct. -/
def validFilterSpec (_ : FilterSpec) : Bool := true

def validPlanSuccess : PlanResponse → Bool
  | .plan op fs _ _ => validOpSpec op && validFilterSpec fs
  | _ => false

def PlanSuccessSchema_parse (r : PlanResponse) : Option PlanResponse :=
  if validPlanSuccess r then some r else none

def validPlanClarify : PlanResponse → Bool
  | .clarify issues draft =>
    !issues.isEmpty &&
    (match draft with
     | none => true
     | some d => validOpSpec d.opSpec && validFilterSpec d.filterSpec)
  | _ => false

def PlanClarifySchema_parse (r : PlanResponse) : Option PlanResponse :=
  if validPlanClarify r then some r else none

def isErrorResponse : PlanResponse → Bool
  | .error _ _ => true
  | _ => false

/-- `PlanResponseSchema` — the union of the three variants. -/
def PlanResponseSchema_parse (r : PlanResponse) : Option PlanResponse :=
  if validPlanSuccess r || validPlanClarify r || isErrorResponse r then some r else none

/-! ## Per-family builders (`parser.ts` lines 111–318) -/

/-- `buildFilterSpec` (lines 61–79). -/
def buildFilterSpec (text : String) (usedSegments : List String) : FilterSpec :=
  let cleaned := filterResidue text usedSegments
  { emptyFilterSpec with
      titleContains := if 3 ≤ cleaned.length then some (String.mk cleaned) else none }

/-- `buildPricePlan` (lines 111–182). -/
def buildPricePlan (text : String) : Option PlanResponse :=
  let lower := lowerOf text
  let filterSpec := buildFilterSpec text ["price", "prices"]
  let mvs : Option (PriceMode × JNum × String) :=
    if testLower lower "increase" || testLower lower "raise" then
      match extractPercentage text with
      | some percent => some (.inc_percent, absJS percent, "plan.summary.priceIncreasePercent")
      | none =>
        match coalesce (extractCurrencyValue text) (extractPlainNumber text) with
        | some amount => some (.inc_value, absJS amount, "plan.summary.priceIncreaseValue")
        | none => none
    else if testLower lower "decrease" || testLower lower "reduce" || testLower lower "lower" then
      match extractPercentage text with
      | some percent => some (.inc_percent, negJS (absJS percent), "plan.summary.priceDecreasePercent")
      | none =>
        match coalesce (extractCurrencyValue text) (extractPlainNumber text) with
        | some amount => some (.inc_value, negJS (absJS amount), "plan.summary.priceDecreaseValue")
        | none => none
    else if (testLower lower "set" || testLower lower "change") && testLower lower "price" then
      match coalesce (extractCurrencyValue text) (extractPlainNumber text) with
      | some amount => some (.set, amount, "plan.summary.priceSet")
      | none => none
    else none
  match mvs with
  | none =>
    PlanClarifySchema_parse
      (.clarify [⟨.planMissingAmount, "plan.clarify.missingAmount"⟩] none)
  | some (mode, value, summaryKey) =>
    PlanSuccessSchema_parse
      (.plan (.price .product mode value) filterSpec .medium (some summaryKey))

/-- `buildTagsPlan` (lines 184–224). -/
def buildTagsPlan (text : String) : Option PlanResponse :=
  let lower := lowerOf text
  let filterSpec := buildFilterSpec text ["tag", "tags"]
  let tags := parseTags text
  if tags.isEmpty then
    PlanClarifySchema_parse
      (.clarify [⟨.planMissingTagValues, "plan.clarify.missingTags"⟩] none)
  else
    let mode : TagsMode :=
      if testLower lower "replace" then .replace
      else if testLower lower "remove" || testLower lower "delete" then .remove
      else .add
    let summaryKey : String :=
      match mode with
      | .add => "plan.summary.tagsAdd"
      | .remove => "plan.summary.tagsRemove"
      | .replace => "plan.summary.tagsReplace"
    PlanSuccessSchema_parse
      (.plan (.tags .product mode tags) filterSpec .medium (some summaryKey))

/-- JS falsiness of `location` in `buildInventoryPlan`: `null` or `""`. -/
def falsyLoc : Option String → Bool
  | none => true
  | some s => s = ""

/-- `buildInventoryPlan` (lines 226–287).  The draft `OpSpecSchema.parse`
happens before the issue check, so an invalid draft (non-integer value or
empty captured location) throws. -/
def buildInventoryPlan (text : String) : Option PlanResponse :=
  let lower := lowerOf text
  let number := extractPlainNumber text
  let location := detectLocation text
  let mode1 : InvMode :=
    if testLower lower "increase" || testLower lower "add" || testLower lower "plus" then .inc
    else .set
  let mode : InvMode :=
    if testLower lower "decrease" || testLower lower "remove" || testLower lower "minus" ||
        testLower lower "deduct" then .dec
    else mode1
  let filterSpec := buildFilterSpec text ["inventory", "stock", location.getD ""]
  let draftOpOpt : Option (Option OpSpec) :=
    match number with
    | some n => (OpSpecSchema_parse (.inventory .variant mode (absJS n) location)).map some
    | none => some none
  match draftOpOpt with
  | none => none
  | some draftOp =>
    let issues : List ClarifyIssue :=
      (if number = none then [⟨.planMissingAmount, "plan.clarify.missingAmount"⟩] else []) ++
      (if falsyLoc location then [⟨.inventoryRequireLocation, "plan.clarify.requireLocation"⟩]
       else [])
    if !issues.isEmpty then
      PlanClarifySchema_parse
        (.clarify issues (draftOp.map (fun op => ⟨op, filterSpec, .low⟩)))
    else
      match number, location with
      | some n, some loc =>
        PlanSuccessSchema_parse
          (.plan (.inventory .variant mode (absJS n) (some loc)) filterSpec .medium
            (some "plan.summary.inventoryAdjust"))
      | _, _ => none

/-- `buildStatusPlan` (lines 289–318). -/
def buildStatusPlan (text : String) : Option PlanResponse :=
  match deriveStatus text with
  | none =>
    PlanClarifySchema_parse
      (.clarify [⟨.planUnsupported, "plan.clarify.unsupportedStatus"⟩] none)
  | some status =>
    let filterSpec := buildFilterSpec text ["publish", "unpublish", "archive", "status"]
    PlanSuccessSchema_parse
      (.plan (.status .product status) filterSpec .medium (some "plan.summary.statusChange"))

/-- `planFromRequest` (lines 320–349): trim, lowercase, dispatch on the
family triggers in priority order (price, tag, inventory/stock/quantity,
publish/unpublish/archive/draft), re-validate the builder output, or
return the unrecognized clarify.  `request.locale` is never read. -/
def planFromRequest (request : PlanRequest) : Option PlanResponse :=
  let original := normalize request.text
  let lower := lowerOf original
  if testLower lower "price" then
    (buildPricePlan original).bind PlanResponseSchema_parse
  else if testLower lower "tag" then
    (buildTagsPlan original).bind PlanResponseSchema_parse
  else if testLower lower "inventory" || testLower lower "stock" ||
      testLower lower "quantity" then
    (buildInventoryPlan original).bind PlanResponseSchema_parse
  else if testCI original "publish" || testCI original "unpublish" ||
      testCI original "archive" || testCI original "draft" then
    (buildStatusPlan original).bind PlanResponseSchema_parse
  else
    PlanClarifySchema_parse
      (.clarify [⟨.planUnrecognized, "plan.clarify.unrecognized"⟩] none)

/-- The `titleContains` hint of a `plan` response (used to inspect the
filter of a planner output). -/
def responseTitle : PlanResponse → Option String
  | .plan _ fs _ _ => fs.titleContains
  | _ => none

/-! ## Shared lemmas -/

/-- The primitive `Rat.neg` is the negation of `ℚ`. -/
theorem ratNeg_eq (q : ℚ) : q.neg = -q := rfl

/-- The numerator-sign computation of `absQ` is the absolute value. -/
theorem absQ_eq_abs (q : ℚ) : absQ q = |q| := by
  unfold absQ
  rcases lt_or_le q.num 0 with h | h
  · rw [if_pos h]
    show -q = |q|
    rw [abs_of_neg (Rat.num_neg.mp h)]
  · rw [if_neg (not_lt.mpr h), abs_of_nonneg (Rat.num_nonneg.mp h)]

/-! ## The claims -/

/-- C1: the claim says `planFromRequest` never raises and that every
extraction primitive signals a failed extraction by an absent value.
The code violates both: the currency regex, built in a template literal
that drops the `\d`/`\s`/`\.` escapes, matches the letter `d` of
"hoodie", `parseFloat` of that capture is `NaN` (a present value), the
price builder accepts it (`NaN !== null`), and `PlanSuccessSchema.parse`
throws on `value: NaN` — modelled by the result `none`. -/
theorem C1_planner_throws :
    extractCurrencyValue "increase hoodie price by 5" = some JNum.nan ∧
    planFromRequest ⟨"increase hoodie price by 5", none⟩ = none :=
  ⟨by decide, by decide⟩

/-- C2: the claim (and the spec's own example) says "increase hoodie
prices" yields a clarify with code `plan.missingAmount`.  On the code the
percentage extractor does fail, but the broken currency extractor returns
`NaN` for this very input (the `d` of "hoodie"), so the builder takes the
`inc_value` path and `PlanSuccessSchema.parse` throws instead of
returning the clarify — modelled by the result `none`. -/
theorem C2_missing_amount_throws :
    extractPercentage "increase hoodie prices" = none ∧
    extractCurrencyValue "increase hoodie prices" = some JNum.nan ∧
    planFromRequest ⟨"increase hoodie prices", none⟩ = none :=
  ⟨by decide, by decide, by decide⟩

/-- C5: the claim says that whenever the location is missing the
inventory response is a clarify containing `inventory.requireLocation`,
with a low-confidence draft exactly when a number was extracted.  On
"increase stock by 2.5" a number (5/2) is extracted and no location is
found, but building the draft calls `OpSpecSchema.parse` with the
non-integer value 5/2, which fails `z.number().int()` and throws before
any clarify can be produced — modelled by the result `none`. -/
theorem C5_inventory_throws :
    extractPlainNumber "increase stock by 2.5" = some (JNum.val (Rat.divInt 5 2)) ∧
    detectLocation "increase stock by 2.5" = none ∧
    planFromRequest ⟨"increase stock by 2.5", none⟩ = none :=
  ⟨by decide, by decide, by decide⟩

/-- C4: `deriveStatus` is the three-rule keyword mapping with the first
matching rule winning — publish/activate → ACTIVE; otherwise
unpublish/draft → DRAFT; otherwise archive → ARCHIVED; otherwise absent —
and "archive all products" produces a full status plan with
`{ operation: "status", params: { status: "ARCHIVED" } }`. -/
theorem C4_status_mapping :
    (∀ text : String,
      testCI text "publish" = true ∨ testCI text "activate" = true →
      deriveStatus text = some ProductStatus.ACTIVE) ∧
    (∀ text : String,
      testCI text "publish" = false → testCI text "activate" = false →
      testCI text "unpublish" = true ∨ testCI text "draft" = true →
      deriveStatus text = some ProductStatus.DRAFT) ∧
    (∀ text : String,
      testCI text "publish" = false → testCI text "activate" = false →
      testCI text "unpublish" = false → testCI text "draft" = false →
      testCI text "archive" = true →
      deriveStatus text = some ProductStatus.ARCHIVED) ∧
    (∀ text : String,
      testCI text "publish" = false → testCI text "activate" = false →
      testCI text "unpublish" = false → testCI text "draft" = false →
      testCI text "archive" = false →
      deriveStatus text = none) ∧
    planFromRequest ⟨"archive all products", none⟩ =
      some (.plan (.status .product .ARCHIVED) emptyFilterSpec .medium
        (some "plan.summary.statusChange")) := by
  refine ⟨?_, ?_, ?_, ?_, by decide⟩
  · intro text h
    rcases h with h | h <;> simp [deriveStatus, h]
  · intro text h1 h2 h
    rcases h with h | h <;> simp [deriveStatus, h1, h2, h]
  · intro text h1 h2 h3 h4 h5
    simp [deriveStatus, h1, h2, h3, h4, h5]
  · intro text h1 h2 h3 h4 h5
    simp [deriveStatus, h1, h2, h3, h4, h5]

/-- C4 witness: the keyword mapping evaluated through the theorem at
concrete inputs from each rule. -/
theorem C4_status_mapping_witness :
    deriveStatus "publish everything" = some ProductStatus.ACTIVE ∧
    deriveStatus "move to draft" = some ProductStatus.DRAFT ∧
    deriveStatus "archive old items" = some ProductStatus.ARCHIVED ∧
    deriveStatus "hello world" = none :=
  ⟨C4_status_mapping.1 "publish everything" (Or.inl (by decide)),
   C4_status_mapping.2.1 "move to draft" (by decide) (by decide) (Or.inr (by decide)),
   C4_status_mapping.2.2.1 "archive old items" (by decide) (by decide) (by decide)
     (by decide) (by decide),
   C4_status_mapping.2.2.2.1 "hello world" (by decide) (by decide) (by decide)
     (by decide) (by decide)⟩

/-- C9: the planner is a pure function and the `locale` field is never
read, so repeated calls with the same `{text, locale}` have the same
outcome and any two locales give identical outcomes (including the
throwing cases, where both calls throw alike). -/
theorem C9_locale_independent :
    ∀ (text : String) (locale1 locale2 : Option String),
      planFromRequest ⟨text, locale1⟩ = planFromRequest ⟨text, locale2⟩ := by
  intro text locale1 locale2
  rfl

/-- C3 counterexample: on "increase hoodie prices by 10%" the residual
filter is "increase hoodie s by" — the direction word "increase", the
`s` left over from replacing "price" inside "prices", and "by" survive,
because none of them is in the stop-word table — so `titleContains` is
not "hoodie" as the claim states. -/
theorem C3_counterexample :
    (planFromRequest ⟨"increase hoodie prices by 10%", none⟩).bind responseTitle =
      some "increase hoodie s by" ∧
    (planFromRequest ⟨"increase hoodie prices by 10%", none⟩).bind responseTitle ≠
      some "hoodie" :=
  ⟨by decide, by decide⟩

/-- C3 (amended): on "increase hoodie prices by 10%" the plan's
`filterSpec.titleContains` is "increase hoodie s by"; in general the
filter-phrase builder strips quoted spans, numeric/percentage tokens, the
stop-word table and the consumed family fragments, and `titleContains` is
the collapsed residue exactly when that residue is at least 3 characters
long, every other filter field staying empty. -/
theorem C3_filter_residue :
    planFromRequest ⟨"increase hoodie prices by 10%", none⟩ =
      some (.plan (.price .product .inc_percent (.val 10))
        { emptyFilterSpec with titleContains := some "increase hoodie s by" } .medium
        (some "plan.summary.priceIncreasePercent")) ∧
    (∀ (text : String) (segs : List String),
      (buildFilterSpec text segs).titleContains = none ↔
        (filterResidue text segs).length < 3) ∧
    (∀ (text : String) (segs : List String) (s : String),
      (buildFilterSpec text segs).titleContains = some s →
      s = String.mk (filterResidue text segs) ∧ 3 ≤ (filterResidue text segs).length) ∧
    (∀ (text : String) (segs : List String),
      (buildFilterSpec text segs).mustVendors = [] ∧
      (buildFilterSpec text segs).mustTypes = [] ∧
      (buildFilterSpec text segs).mustCollections = [] ∧
      (buildFilterSpec text segs).mustTags = [] ∧
      (buildFilterSpec text segs).mustNotTags = [] ∧
      (buildFilterSpec text segs).numericPriceGte = none ∧
      (buildFilterSpec text segs).numericPriceLte = none ∧
      (buildFilterSpec text segs).numericInventoryEq = none) := by
  refine ⟨by decide, ?_, ?_, ?_⟩
  · intro text segs
    by_cases h : 3 ≤ (filterResidue text segs).length
    · simp [buildFilterSpec, h]
    · simp [buildFilterSpec, h]
      omega
  · intro text segs s hs
    by_cases h : 3 ≤ (filterResidue text segs).length
    · simp [buildFilterSpec, h] at hs
      exact ⟨hs.symm, h⟩
    · simp [buildFilterSpec, h] at hs
  · intro text segs
    exact ⟨rfl, rfl, rfl, rfl, rfl, rfl, rfl, rfl⟩

/-- C3 witness: the residue rule evaluated through the theorem at the
concrete input of the claim. -/
theorem C3_filter_residue_witness :
    "increase hoodie s by" =
      String.mk (filterResidue "increase hoodie prices by 10%" ["price", "prices"]) ∧
    3 ≤ (filterResidue "increase hoodie prices by 10%" ["price", "prices"]).length :=
  C3_filter_residue.2.2.1 "increase hoodie prices by 10%" ["price", "prices"]
    "increase hoodie s by" (by decide)

/-- C6: "decrease price by 15%" plans `mode: inc_percent, value: -15`,
"increase price by 15%" plans `value: 15`; in general, whenever a
direction keyword fires and the percentage extractor returns a (non-NaN)
value `q`, the price builder emits `inc_percent` with value `|q|` for
increase/raise and `-|q|` for decrease/reduce/lower. -/
theorem C6_price_percent_sign :
    planFromRequest ⟨"decrease price by 15%", none⟩ =
      some (.plan (.price .product .inc_percent (.val (-15)))
        { emptyFilterSpec with titleContains := some "decrease by" } .medium
        (some "plan.summary.priceDecreasePercent")) ∧
    planFromRequest ⟨"increase price by 15%", none⟩ =
      some (.plan (.price .product .inc_percent (.val 15))
        { emptyFilterSpec with titleContains := some "increase by" } .medium
        (some "plan.summary.priceIncreasePercent")) ∧
    (∀ (text : String) (q : ℚ),
      testLower (lowerOf text) "increase" = true ∨ testLower (lowerOf text) "raise" = true →
      extractPercentage text = some (.val q) →
      buildPricePlan text =
        some (.plan (.price .product .inc_percent (.val |q|))
          (buildFilterSpec text ["price", "prices"]) .medium
          (some "plan.summary.priceIncreasePercent"))) ∧
    (∀ (text : String) (q : ℚ),
      testLower (lowerOf text) "increase" = false →
      testLower (lowerOf text) "raise" = false →
      (testLower (lowerOf text) "decrease" = true ∨ testLower (lowerOf text) "reduce" = true ∨
        testLower (lowerOf text) "lower" = true) →
      extractPercentage text = some (.val q) →
      buildPricePlan text =
        some (.plan (.price .product .inc_percent (.val (-|q|)))
          (buildFilterSpec text ["price", "prices"]) .medium
          (some "plan.summary.priceDecreasePercent"))) := by
  refine ⟨by decide, by decide, ?_, ?_⟩
  · intro text q hdir hpct
    rcases hdir with h | h <;>
      simp [buildPricePlan, h, hpct, absJS, absQ_eq_abs, PlanSuccessSchema_parse,
        validPlanSuccess, validOpSpec, validJNum, validFilterSpec]
  · intro text q h1 h2 hdir hpct
    rcases hdir with h | h | h <;>
      simp [buildPricePlan, h1, h2, h, hpct, absJS, negJS, absQ_eq_abs, ratNeg_eq,
        PlanSuccessSchema_parse, validPlanSuccess, validOpSpec, validJNum, validFilterSpec]

/-- C6 witness: the sign rule evaluated through the theorem at the two
inputs of the claim. -/
theorem C6_price_percent_sign_witness :
    buildPricePlan "increase price by 15%" =
      some (.plan (.price .product .inc_percent (.val |(15 : ℚ)|))
        (buildFilterSpec "increase price by 15%" ["price", "prices"]) .medium
        (some "plan.summary.priceIncreasePercent")) ∧
    buildPricePlan "decrease price by 15%" =
      some (.plan (.price .product .inc_percent (.val (-|(15 : ℚ)|)))
        (buildFilterSpec "decrease price by 15%" ["price", "prices"]) .medium
        (some "plan.summary.priceDecreasePercent")) :=
  ⟨C6_price_percent_sign.2.2.1 "increase price by 15%" 15 (Or.inl (by decide)) (by decide),
   C6_price_percent_sign.2.2.2 "decrease price by 15%" 15 (by decide) (by decide)
     (Or.inl (by decide)) (by decide)⟩

/-- C7 counterexample: a quoted literal consisting only of spaces is
present in the input, but `parseTags` drops it (`filter(Boolean)` after
trimming), so the result is not "exactly those literals trimmed and in
input order". -/
theorem C7_counterexample :
    quotedCaptures ("add '   ' tags".data) = [[' ', ' ', ' ']] ∧
    (quotedCaptures ("add '   ' tags".data)).map (fun t => String.mk (trimChars t)) =
      [""] ∧
    parseTags "add '   ' tags" = [] ∧
    parseTags "add '   ' tags" ≠
      (quotedCaptures ("add '   ' tags".data)).map (fun t => String.mk (trimChars t)) :=
  ⟨by decide, by decide, by decide, by decide⟩

/-- C7 (amended): the quoted tag literals are preserved in input order
and case — `add "Summer Sale" and "Clearance" tags` plans tags mode add
with values `["Summer Sale", "Clearance"]` — and in general, when quoted
literals are present, `parseTags` returns exactly those literals trimmed
and in input order, dropping any literal that trims to the empty
string. -/
theorem C7_tag_fidelity :
    planFromRequest ⟨"add \"Summer Sale\" and \"Clearance\" tags", none⟩ =
      some (.plan (.tags .product .add ["Summer Sale", "Clearance"])
        { emptyFilterSpec with titleContains := some "add s" } .medium
        (some "plan.summary.tagsAdd")) ∧
    (∀ text : String,
      quotedCaptures text.data ≠ [] →
      parseTags text =
        ((quotedCaptures text.data).map (fun t => String.mk (trimChars t))).filter
          (fun s => s ≠ "")) := by
  refine ⟨by decide, ?_⟩
  intro text h
  have h2 : (quotedCaptures text.data).isEmpty = false := by
    cases hq : quotedCaptures text.data with
    | nil => exact absurd hq h
    | cons a l => rfl
  simp [parseTags, h2]

/-- C7 witness: the quoted-literal rule evaluated through the theorem at
the concrete input of the claim. -/
theorem C7_tag_fidelity_witness :
    parseTags "add \"Summer Sale\" and \"Clearance\" tags" =
      ((quotedCaptures ("add \"Summer Sale\" and \"Clearance\" tags").data).map
        (fun t => String.mk (trimChars t))).filter (fun s => s ≠ "") :=
  C7_tag_fidelity.2 "add \"Summer Sale\" and \"Clearance\" tags" (by decide)

/-- C8: an input matching no family trigger yields the single-issue
`plan.unrecognized` clarify with no draft ("do something vague" being the
claim's example), and the dispatcher tests the triggers in the fixed
priority order — price, then tag, then inventory/stock/quantity, then
publish/unpublish/archive/draft — invoking the first matching builder. -/
theorem C8_dispatch_priority :
    planFromRequest ⟨"do something vague", none⟩ =
      some (.clarify [⟨.planUnrecognized, "plan.clarify.unrecognized"⟩] none) ∧
    (∀ (text : String) (locale : Option String),
      testLower (lowerOf (normalize text)) "price" = false →
      testLower (lowerOf (normalize text)) "tag" = false →
      testLower (lowerOf (normalize text)) "inventory" = false →
      testLower (lowerOf (normalize text)) "stock" = false →
      testLower (lowerOf (normalize text)) "quantity" = false →
      testCI (normalize text) "publish" = false →
      testCI (normalize text) "unpublish" = false →
      testCI (normalize text) "archive" = false →
      testCI (normalize text) "draft" = false →
      planFromRequest ⟨text, locale⟩ =
        some (.clarify [⟨.planUnrecognized, "plan.clarify.unrecognized"⟩] none)) ∧
    (∀ (text : String) (locale : Option String),
      testLower (lowerOf (normalize text)) "price" = true →
      planFromRequest ⟨text, locale⟩ =
        (buildPricePlan (normalize text)).bind PlanResponseSchema_parse) ∧
    (∀ (text : String) (locale : Option String),
      testLower (lowerOf (normalize text)) "price" = false →
      testLower (lowerOf (normalize text)) "tag" = true →
      planFromRequest ⟨text, locale⟩ =
        (buildTagsPlan (normalize text)).bind PlanResponseSchema_parse) ∧
    (∀ (text : String) (locale : Option String),
      testLower (lowerOf (normalize text)) "price" = false →
      testLower (lowerOf (normalize text)) "tag" = false →
      (testLower (lowerOf (normalize text)) "inventory" = true ∨
        testLower (lowerOf (normalize text)) "stock" = true ∨
        testLower (lowerOf (normalize text)) "quantity" = true) →
      planFromRequest ⟨text, locale⟩ =
        (buildInventoryPlan (normalize text)).bind PlanResponseSchema_parse) ∧
    (∀ (text : String) (locale : Option String),
      testLower (lowerOf (normalize text)) "price" = false →
      testLower (lowerOf (normalize text)) "tag" = false →
      testLower (lowerOf (normalize text)) "inventory" = false →
      testLower (lowerOf (normalize text)) "stock" = false →
      testLower (lowerOf (normalize text)) "quantity" = false →
      (testCI (normalize text) "publish" = true ∨
        testCI (normalize text) "unpublish" = true ∨
        testCI (normalize text) "archive" = true ∨
        testCI (normalize text) "draft" = true) →
      planFromRequest ⟨text, locale⟩ =
        (buildStatusPlan (normalize text)).bind PlanResponseSchema_parse) := by
  refine ⟨by decide, ?_, ?_, ?_, ?_, ?_⟩
  · intro text locale hp ht hi hs hq hpub hunp harc hdr
    simp [planFromRequest, hp, ht, hi, hs, hq, hpub, hunp, harc, hdr,
      PlanClarifySchema_parse, validPlanClarify]
  · intro text locale hp
    simp [planFromRequest, hp]
  · intro text locale hp ht
    simp [planFromRequest, hp, ht]
  · intro text locale hp ht h
    rcases h with h | h | h <;> simp [planFromRequest, hp, ht, h]
  · intro text locale hp ht hi hs hq h
    rcases h with h | h | h | h <;> simp [planFromRequest, hp, ht, hi, hs, hq, h]

/-- C8 witness: the dispatcher evaluated through the theorem at an input
with no trigger and at an input with the price trigger. -/
theorem C8_dispatch_priority_witness :
    planFromRequest ⟨"make this pretty", none⟩ =
      some (.clarify [⟨.planUnrecognized, "plan.clarify.unrecognized"⟩] none) ∧
    planFromRequest ⟨"set price to 5", none⟩ =
      (buildPricePlan (normalize "set price to 5")).bind PlanResponseSchema_parse :=
  ⟨C8_dispatch_priority.2.1 "make this pretty" none (by decide) (by decide) (by decide)
     (by decide) (by decide) (by decide) (by decide) (by decide) (by decide),
   C8_dispatch_priority.2.2.1 "set price to 5" none (by decide)⟩

/-- C10: the family triggers are substring tests, so a text without
"price" whose "tag" occurrence sits inside a longer word (the "tag" of
"vintage") is routed to the tags builder; "publish vintage products"
therefore yields a tags plan with mode add and values `["e products"]`
(what follows the embedded "tag", split on commas/ampersands) rather than
a status plan. -/
theorem C10_substring_dispatch :
    (∀ (text : String) (locale : Option String),
      testLower (lowerOf (normalize text)) "price" = false →
      testLower (lowerOf (normalize text)) "tag" = true →
      planFromRequest ⟨text, locale⟩ =
        (buildTagsPlan (normalize text)).bind PlanResponseSchema_parse) ∧
    planFromRequest ⟨"publish vintage products", none⟩ =
      some (.plan (.tags .product .add ["e products"])
        { emptyFilterSpec with titleContains := some "publish vin e" } .medium
        (some "plan.summary.tagsAdd")) := by
  refine ⟨?_, by decide⟩
  intro text locale hp ht
  simp [planFromRequest, hp, ht]

/-- C10 witness: the substring routing evaluated through the theorem at
the concrete input of the claim. -/
theorem C10_substring_dispatch_witness :
    planFromRequest ⟨"publish vintage products", none⟩ =
      (buildTagsPlan (normalize "publish vintage products")).bind PlanResponseSchema_parse :=
  C10_substring_dispatch.1 "publish vintage products" none (by decide) (by decide)

end ShopifyPlanner
